import Mathlib

/-!
Verification of the ThisAPIOfMine backend service against its
natural-language specification.

The development shallowly embeds the Rust source:
* strings are modelled as `List Char` (Rust `&str` at char granularity; every
  byte-index operation performed by the source is guarded so that the char
  model coincides with the byte model at the use sites);
* byte buffers are `List Nat` with each entry a byte value;
* fallible Rust code returns `Except`;
* the external collaborators (HTTP transport, random source, system clock,
  relational store, AEAD cipher) are passed in as explicit parameters.
-/

namespace ThisApi

/-! ## Characters and strings -/

/-- The Unicode code points with the `White_Space` property, i.e. the
characters accepted by Rust's `char::is_whitespace`. -/
def rustWhitespaceVals : List UInt32 :=
  [0x09, 0x0A, 0x0B, 0x0C, 0x0D, 0x20, 0x85, 0xA0, 0x1680,
   0x2000, 0x2001, 0x2002, 0x2003, 0x2004, 0x2005, 0x2006, 0x2007,
   0x2008, 0x2009, 0x200A, 0x2028, 0x2029, 0x202F, 0x205F, 0x3000]

/-- Rust `char::is_whitespace`. -/
def rustIsWhitespace (c : Char) : Bool :=
  rustWhitespaceVals.contains c.val

/-- Rust `str::split_whitespace`: the maximal non-empty runs of
non-whitespace characters. -/
def splitWhitespace (s : List Char) : List (List Char) :=
  (s.splitOnP rustIsWhitespace).filter (fun t => !t.isEmpty)

/-- Rust `str::starts_with(c)` for a single character. -/
def startsWithChar (s : List Char) (c : Char) : Bool :=
  match s with
  | x :: _ => x = c
  | [] => false

/-! ## Error taxonomy (`src/errors/mod.rs`)

`InternalError::External` boxes an arbitrary foreign error; the only
inspection the source ever performs on the box is
`err.is::<reqwest::Error>()`, so the model keeps just that distinction. -/

/-- Which foreign error type an `InternalError::External` box holds. -/
inductive ExternalKind where
  | reqwest
  | other
deriving DecidableEq, Repr

/-- `InternalError` from `src/errors/mod.rs`. -/
inductive InternalError where
  | InvalidSha256 (parts : Nat)
  | WrongChecksum
  | NoReleaseFound
  | InvalidVersion
  | SystemTimeError
  | External (kind : ExternalKind)
deriving DecidableEq, Repr

/-- `InternalError::is::<reqwest::Error>()`: true exactly on an `External`
box holding a `reqwest::Error`. -/
def InternalError.isReqwest : InternalError → Bool
  | .External .reqwest => true
  | _ => false

/-! ## Checksum response parsing (`src/fetcher/checksum.rs`) -/

/-- `HttpChecksumFetcher::parse_response`: split the body on whitespace,
demand exactly two tokens, and demand that the second token is `'*'`
followed by the asset's own name.  (The source's byte slice `filename[1..]`
is only evaluated under the `starts_with('*')` guard, where it coincides
with dropping one character.) -/
def parse_response (asset_name response : List Char) : Except InternalError (List Char) :=
  match splitWhitespace response with
  | [sha256, filename] =>
    match !startsWithChar filename '*' || decide (filename.drop 1 ≠ asset_name) with
    | false => .ok sha256
    | true => .error .WrongChecksum
  | parts => .error (.InvalidSha256 parts.length)

/-! ## Platform-key derivation (`src/fetcher/mod.rs`, `remove_game_suffix`) -/

/-- The `"_releasedbg"` marker searched for by `remove_game_suffix`. -/
def releasedbgMarker : List Char := "_releasedbg".data

/-- Rust `str::find(&str)`: index of the first occurrence of `pat` as a
contiguous substring of `s` (`none` when absent). -/
def strFindSub (pat : List Char) : List Char → Option Nat
  | [] => if pat.isPrefixOf ([] : List Char) then some 0 else none
  | c :: t =>
    if pat.isPrefixOf (c :: t) then some 0
    else (strFindSub pat t).map (· + 1)

/-- Rust's `Option::map_or(s, |pos| &s[..pos])` pattern: the whole string
when the search failed, otherwise the prefix before the found index. -/
def sliceBefore (s : List Char) (o : Option Nat) : List Char :=
  match o with
  | none => s
  | some pos => s.take pos

/-- `remove_game_suffix` from `src/fetcher/mod.rs`: take the prefix before
the first `'.'` (via `str::find('.')`), then the prefix before the first
occurrence of `"_releasedbg"` (via `str::find(&str)`). -/
def remove_game_suffix (asset_name : List Char) : List Char :=
  let platform := sliceBefore asset_name (asset_name.findIdx? (· = '.'))
  sliceBefore platform (strFindSub releasedbgMarker platform)

/-- Platform key as the specification words it: strip everything from the
first `'.'` onward, then strip a *trailing* `"_releasedbg"` marker if
present. -/
def specPlatformKeyTrailing (asset_name : List Char) : List Char :=
  let platform := asset_name.takeWhile (· ≠ '.')
  if releasedbgMarker.isSuffixOf platform then
    platform.take (platform.length - releasedbgMarker.length)
  else platform

/-- Everything strictly before the first occurrence of `"_releasedbg"`
(the whole string when the marker is absent), written as direct recursion. -/
def stripAtMarker : List Char → List Char
  | [] => []
  | c :: t =>
    if releasedbgMarker.isPrefixOf (c :: t) then []
    else c :: stripAtMarker t

/-- Platform key as amended: strip everything from the first `'.'` onward,
then strip everything from the *first occurrence* of `"_releasedbg"` onward. -/
def specPlatformKeyAmended (asset_name : List Char) : List Char :=
  stripAtMarker (asset_name.takeWhile (· ≠ '.'))

/-! ## Release data model (`src/game_data.rs`)

Semantic versions are abstracted to the `major.minor.patch` triple; the
fetcher never inspects a version beyond equality and construction, and the
parser itself (`semver::Version::parse`) is passed in as a parameter `pv`
wherever the fetcher calls it. -/

/-- A parsed semantic version (`semver::Version`). -/
structure Semver where
  major : Nat
  minor : Nat
  patch : Nat
deriving DecidableEq, Repr

/-- `octocrab::models::repos::Asset`, restricted to the fields the fetcher
reads: `name`, `size` and `browser_download_url`. -/
structure RepoAsset where
  name : String
  size : Int
  browser_download_url : String
deriving DecidableEq, Repr

/-- A release as listed by the release host: `tag_name`, `prerelease` flag
and its assets. -/
structure Release where
  tag_name : String
  prerelease : Bool
  assets : List RepoAsset
deriving DecidableEq, Repr

/-- `Asset` from `src/game_data.rs`. -/
structure Asset where
  size : Int
  name : String
  version : Semver
  download_url : String
  sha256 : Option String
deriving DecidableEq, Repr

/-- `Asset::with_version`. -/
def Asset.with_version (asset : RepoAsset) (version : Semver) : Asset :=
  { size := asset.size
    name := asset.name
    download_url := asset.browser_download_url
    sha256 := none
    version := version }

/-- `Assets = HashMap<String, Asset>` modelled as an association list; the
map's observable behaviour is `lookup`, with `insertKV` replacing any
previous binding of the key. -/
abbrev Assets := List (String × Asset)

/-- `HashMap::contains_key`. -/
def Assets.containsKey (m : Assets) (k : String) : Bool :=
  m.any (fun p => p.1 == k)

/-- `HashMap::insert` (replacing any previous binding). -/
def Assets.insertKV (m : Assets) (k : String) (v : Asset) : Assets :=
  m.filter (fun p => p.1 != k) ++ [(k, v)]

/-- `HashMap::remove` (the remaining map; the removed value is `m.lookup k`). -/
def Assets.removeKey (m : Assets) (k : String) : Assets :=
  m.filter (fun p => p.1 != k)

/-- `GameRelease` from `src/game_data.rs`. -/
structure GameRelease where
  assets : Asset
  assets_version : Semver
  binaries : Assets
  version : Semver
deriving DecidableEq, Repr

/-! ## Release fetcher (`src/fetcher/mod.rs`) -/

/-- String wrapper of `remove_game_suffix`. -/
def removeGameSuffixS (s : String) : String :=
  ⟨remove_game_suffix s.data⟩

/-- Rust `str::ends_with(&str)`. -/
def strEndsWith (s suffix : String) : Bool :=
  suffix.data.isSuffixOf s.data

/-- `binaries.is_some_and(|b| b.contains_key(platform))` from the asset
filter of `get_assets_and_checksums`. -/
def blockedBy (binaries : Option Assets) (platform : String) : Bool :=
  match binaries with
  | some b => b.containsKey platform
  | none => false

/-- `Fetcher::get_assets_and_checksums`: keep the assets that are not
checksum companion files and whose platform is not already present in
`binaries`, pair each with `Asset::with_version`, and zip with its checksum
fetch result (`resolve` stands for `ChecksumFetcher::resolve_asset`). -/
def get_assets_and_checksums (resolve : Asset → Except InternalError String)
    (assets : List RepoAsset) (version : Semver) (binaries : Option Assets) :
    List ((String × Asset) × Except InternalError String) :=
  let filtered := assets.filterMap (fun asset =>
    let platform := removeGameSuffixS asset.name
    if !strEndsWith asset.name ".sha256" && !blockedBy binaries platform then
      some (platform, Asset.with_version asset version)
    else none)
  filtered.map (fun pa => (pa, resolve pa.2))

/-- The `asset.sha256 = match sha256 {...}` step shared by all three call
sites: a successful fetch records the checksum, a transport (`reqwest`)
failure leaves the checksum absent, any other failure aborts. -/
def applyChecksum (asset : Asset) (r : Except InternalError String) :
    Except InternalError Asset :=
  match r with
  | .ok sha256 => .ok { asset with sha256 := some sha256 }
  | .error err =>
    match err.isReqwest with
    | true => .ok { asset with sha256 := none }
    | false => .error err

/-- Folding the zipped `(platform, asset, checksum result)` items into the
binaries map, stopping at the first non-tolerated failure — the common
semantics of `collect::<Result<Assets>>()` and of the merge loop's body. -/
def collectBinaries (acc : Assets) :
    List ((String × Asset) × Except InternalError String) →
    Except InternalError Assets
  | [] => .ok acc
  | it :: rest =>
    match applyChecksum it.1.2 it.2 with
    | .error e => .error e
    | .ok asset => collectBinaries (acc.insertKV it.1.1 asset) rest

/-- The `for (version, release) in versions_released` loop of
`get_latest_game_release`: back-fill each strictly older release, in
listing order, only for platforms absent from the working map. -/
def mergeOlder (resolve : Asset → Except InternalError String) (acc : Assets) :
    List (Semver × Release) → Except InternalError Assets
  | [] => .ok acc
  | (version, release) :: rest =>
    match collectBinaries acc
        (get_assets_and_checksums resolve release.assets version (some acc)) with
    | .error e => .error e
    | .ok acc => mergeOlder resolve acc rest

/-- The `versions_released` iterator: drop pre-releases, drop releases whose
tag does not parse (`pv` stands for `semver::Version::parse(..).ok()`). -/
def eligibleReleases (pv : String → Option Semver) (releases : List Release) :
    List (Semver × Release) :=
  releases.filterMap (fun r =>
    if r.prerelease then none
    else (pv r.tag_name).map (fun v => (v, r)))

/-- `Fetcher::get_latest_game_release`. -/
def get_latest_game_release (pv : String → Option Semver)
    (resolve : Asset → Except InternalError String) (releases : List Release) :
    Except InternalError GameRelease :=
  match eligibleReleases pv releases with
  | [] => .error .NoReleaseFound
  | (latest_version, latest_release) :: rest =>
    match collectBinaries []
        (get_assets_and_checksums resolve latest_release.assets latest_version none) with
    | .error e => .error e
    | .ok binaries0 =>
      match mergeOlder resolve binaries0 rest with
      | .error e => .error e
      | .ok binaries =>
        match binaries.lookup "assets" with
        | some assets =>
          .ok { assets_version := assets.version
                assets := assets
                binaries := binaries.removeKey "assets"
                version := latest_version }
        | none => .error .NoReleaseFound

/-- `Fetcher::get_latest_updater_release` (its single release is supplied by
`RepoFetcher::get_last_release`; an unparsable tag is fatal here via the
`?` on `Version::parse`, which `From` converts to `InvalidVersion`). -/
def get_latest_updater_release (pv : String → Option Semver)
    (resolve : Asset → Except InternalError String) (last_release : Release) :
    Except InternalError Assets :=
  match pv last_release.tag_name with
  | none => .error .InvalidVersion
  | some version =>
    collectBinaries []
      (get_assets_and_checksums resolve last_release.assets version none)

/-- The fragment of `semver::Version::parse` exercised by the claims:
plain numeric `major.minor.patch` tags. -/
def parseNatDigits (cs : List Char) : Option Nat :=
  if cs.isEmpty then none
  else if cs.all (·.isDigit) then
    some (cs.foldl (fun n c => n * 10 + (c.toNat - 48)) 0)
  else none

/-- Numeric `major.minor.patch` tag parser (used to instantiate `pv` on
concrete histories). -/
def parseSimpleSemver (s : String) : Option Semver :=
  match (s.data.splitOn '.').map parseNatDigits with
  | [some a, some b, some c] => some ⟨a, b, c⟩
  | _ => none

/-- Classify one checksum result: `some e` when it is a failure the
pipeline does not tolerate, `none` when it is a success or a transport
failure. -/
def fatalResult : Except InternalError String → Option InternalError
  | .ok _ => none
  | .error e => if e.isReqwest then none else some e

/-- The first non-tolerated checksum failure among zipped items. -/
def firstFatal :
    List ((String × Asset) × Except InternalError String) → Option InternalError
  | [] => none
  | it :: rest =>
    match fatalResult it.2 with
    | some e => some e
    | none => firstFatal rest

/-- Whether a release carries an `assets` bundle entry: an asset that is not
a checksum companion file and whose platform key is `"assets"`. -/
def hasAssetsEntry (r : Release) : Bool :=
  r.assets.any (fun a =>
    !strEndsWith a.name ".sha256" && removeGameSuffixS a.name == "assets")

/-! ### Concrete histories and helpers for witnesses -/

/-- The asset value actually stored for one tolerated item: the fetched
checksum on success, an absent checksum on a tolerated transport failure. -/
def toleratedAsset (it : (String × Asset) × Except InternalError String) : Asset :=
  { it.1.2 with sha256 := it.2.toOption }

/-- The map obtained by inserting every item of a fatal-free batch. -/
def insertAllTolerant (acc : Assets) :
    List ((String × Asset) × Except InternalError String) → Assets
  | [] => acc
  | it :: rest => insertAllTolerant (acc.insertKV it.1.1 (toleratedAsset it)) rest

/-- A two-release history: `0.2.0` ships only a `windows_x64` binary,
`0.1.0` ships `assets`, `windows_x64` and `linux_x86_64`. -/
def rel020 : Release := ⟨"0.2.0", false, [⟨"windows_x64.zip", 2, "u2w"⟩]⟩

/-- The older, complete release of the back-fill scenario. -/
def rel010 : Release := ⟨"0.1.0", false,
  [⟨"assets.zip", 10, "u1a"⟩, ⟨"windows_x64.zip", 11, "u1w"⟩,
   ⟨"linux_x86_64.zip", 12, "u1l"⟩]⟩

/-- A checksum fetcher that always succeeds, deriving the hash from the URL. -/
def resolveHash : Asset → Except InternalError String :=
  fun a => .ok (a.download_url ++ ".sha")

/-- The release the back-fill scenario resolves to. -/
def grC1 : GameRelease :=
  { assets := ⟨10, "assets.zip", ⟨0, 1, 0⟩, "u1a", some "u1a.sha"⟩
    assets_version := ⟨0, 1, 0⟩
    binaries :=
      [("windows_x64", ⟨2, "windows_x64.zip", ⟨0, 2, 0⟩, "u2w", some "u2w.sha"⟩),
       ("linux_x86_64", ⟨12, "linux_x86_64.zip", ⟨0, 1, 0⟩, "u1l", some "u1l.sha"⟩)]
    version := ⟨0, 2, 0⟩ }

/-- A concrete asset used by witnesses. -/
def assetW : Asset := ⟨2, "windows_x64.zip", ⟨0, 2, 0⟩, "u2w", none⟩

/-! ## Route errors (`src/errors/api.rs`) -/

/-- `ErrorCause` from `src/errors/api.rs`. -/
inductive ErrorCause where
  | Database
  | Internal
deriving DecidableEq, Repr

/-- `ErrorCode` from `src/errors/api.rs`. -/
inductive ErrorCode where
  | FetchUpdaterRelease
  | FetchGameRelease
  | NicknameEmpty
  | NicknameToolong
  | NicknameForbiddenCharacters
  | AuthenticationInvalidToken
  | EmptyToken
  | TokenGenerationFailed
  | External (s : String)
  | Internal
deriving DecidableEq, Repr

/-- `RequestError` from `src/errors/api.rs`. -/
structure RequestError where
  err_code : ErrorCode
  err_desc : String
deriving DecidableEq, Repr

/-- `RouteError` from `src/errors/api.rs`. -/
inductive RouteError where
  | ServerError (cause : ErrorCause) (code : ErrorCode)
  | InvalidRequest (err : RequestError)
  | NotFoundPlatform (desc : String)
deriving DecidableEq, Repr

/-- `ResponseError::status_code` for `RouteError`. -/
def RouteError.status_code : RouteError → Nat
  | .ServerError _ _ => 500
  | .InvalidRequest _ => 400
  | .NotFoundPlatform _ => 404

/-- The `err_code` half of the JSON body produced by
`RouteError::error_response`: a `ServerError` carrying an `External` code is
downgraded to the generic `Internal` code; other codes pass through. -/
def RouteError.body_err_code : RouteError → ErrorCode
  | .ServerError _ (.External _) => .Internal
  | .ServerError _ code => code
  | .InvalidRequest err => err.err_code
  | .NotFoundPlatform _ => .Internal

/-! ## Player creation (`src/routes/players.rs`) -/

/-- Rust `str::trim_start` (drop leading Unicode whitespace). -/
def rustTrimStart (s : List Char) : List Char :=
  s.dropWhile rustIsWhitespace

/-- Rust `str::trim_end` (drop trailing Unicode whitespace). -/
def rustTrimEnd (s : List Char) : List Char :=
  (s.reverse.dropWhile rustIsWhitespace).reverse

/-- Rust `str::trim`. -/
def rustTrim (s : List Char) : List Char :=
  rustTrimEnd (rustTrimStart s)

/-- Rust `str::len`: the UTF-8 byte length. -/
def utf8Len (s : List Char) : Nat :=
  (s.map Char.utf8Size).sum

/-- Rust `char::is_ascii_alphanumeric`. -/
def isAsciiAlphanumeric (c : Char) : Bool :=
  decide (('A' ≤ c ∧ c ≤ 'Z') ∨ ('a' ≤ c ∧ c ≤ 'z') ∨ ('0' ≤ c ∧ c ≤ '9'))

/-- The nickname-policy slice of `ApiConfig` read by `create`. -/
structure NicknameConfig where
  player_nickname_maxlength : Nat
  player_allow_non_ascii : Bool
deriving DecidableEq, Repr

/-- A `players` row as far as `create` inserts one. -/
structure PlayerRow where
  uuid : String
  nickname : List Char
deriving DecidableEq, Repr

/-- `CreatePlayerResponse` from `src/routes/players.rs`. -/
structure CreatePlayerResponse where
  uuid : String
  token : String
deriving DecidableEq, Repr

/-- The `err_desc` of the too-long rejection. -/
def toolongDesc (config : NicknameConfig) : String :=
  "Nickname size exceeds maximum size of " ++ toString config.player_nickname_maxlength

/-- `create` from `src/routes/players.rs`, with its collaborators passed
explicitly: `uuid` is the freshly generated v4 UUID, `token` the base64 of
32 random bytes, `db` the current `players` table, and the happy path
assumes the store accepts the transaction.  Returns the route result
together with the resulting table. -/
def createPlayer (config : NicknameConfig) (nickname_param : List Char)
    (uuid token : String) (db : List PlayerRow) :
    Except RouteError CreatePlayerResponse × List PlayerRow :=
  let nickname := rustTrim nickname_param
  if nickname.isEmpty then
    (.error (.InvalidRequest ⟨.NicknameEmpty, "Nickname cannot be empty"⟩), db)
  else if utf8Len nickname > config.player_nickname_maxlength then
    (.error (.InvalidRequest ⟨.NicknameToolong, toolongDesc config⟩), db)
  else if !config.player_allow_non_ascii
      && !(nickname.all (fun c => isAsciiAlphanumeric c || c == ' ' || c == '_')) then
    (.error (.InvalidRequest ⟨.NicknameForbiddenCharacters,
      "Nickname can only have ascii characters"⟩), db)
  else
    (.ok ⟨uuid, token⟩, db ++ [⟨uuid, nickname⟩])

/-! ## Binary encoding (`src/routes/connection/token.rs`, deku writers)

Byte buffers are `List Nat`, one byte per entry; multi-byte integers are
written little-endian with explicit `% 256` digit extraction.  Rust strings
are modelled as their UTF-8 byte lists here (the code only ever takes
`as_bytes()` of them). -/

/-- Little-endian `u16`. -/
def u16le (n : Nat) : List Nat :=
  [n % 256, n / 256 % 256]

/-- Little-endian `u32`. -/
def u32le (n : Nat) : List Nat :=
  [n % 256, n / 256 % 256, n / 256 ^ 2 % 256, n / 256 ^ 3 % 256]

/-- Little-endian `u64`. -/
def u64le (n : Nat) : List Nat :=
  [n % 256, n / 256 % 256, n / 256 ^ 2 % 256, n / 256 ^ 3 % 256,
   n / 256 ^ 4 % 256, n / 256 ^ 5 % 256, n / 256 ^ 6 % 256, n / 256 ^ 7 % 256]

/-- The deku writer state: the bytes written so far. -/
abbrev DekuWriter := List Nat

/-- `slice::to_writer`: raw bytes. -/
def dekuWriteBytes (w : DekuWriter) (bs : List Nat) : DekuWriter := w ++ bs

/-- `u32::to_writer` under the little-endian context. -/
def dekuWriteU32 (w : DekuWriter) (n : Nat) : DekuWriter := w ++ u32le n

/-- `u64::to_writer` under the little-endian context. -/
def dekuWriteU64 (w : DekuWriter) (n : Nat) : DekuWriter := w ++ u64le n

/-- `deku_helper_write_str`: the byte count as a 4-byte little-endian `u32`,
then the UTF-8 bytes. -/
def deku_helper_write_str (w : DekuWriter) (value : List Nat) : DekuWriter :=
  dekuWriteBytes (dekuWriteU32 w value.length) value

/-- `deku_helper_write_key`: the 32 raw key bytes. -/
def deku_helper_write_key (w : DekuWriter) (value : List Nat) : DekuWriter :=
  dekuWriteBytes w value

/-- `uuid::Uuid` as its record fields (`d1 : u32`, `d2 d3 : u16`,
`d4 : [u8; 8]`). -/
structure UuidM where
  d1 : Nat
  d2 : Nat
  d3 : Nat
  d4 : List Nat
deriving DecidableEq, Repr

/-- `Uuid::to_bytes_le`: `d1`, `d2`, `d3` little-endian, then `d4` raw. -/
def UuidM.to_bytes_le (u : UuidM) : List Nat :=
  u32le u.d1 ++ u16le u.d2 ++ u16le u.d3 ++ u.d4

/-- `deku_helper_write_uuid`. -/
def deku_helper_write_uuid (w : DekuWriter) (value : UuidM) : DekuWriter :=
  dekuWriteBytes w value.to_bytes_le

/-- `PlayerData` from `src/routes/connection/token.rs`. -/
structure PlayerData where
  uuid : UuidM
  nickname : List Nat
deriving DecidableEq, Repr

/-- The deku-derived writer for `PlayerData` (fields in declaration order). -/
def PlayerData.write (w : DekuWriter) (pd : PlayerData) : DekuWriter :=
  deku_helper_write_str (deku_helper_write_uuid w pd.uuid) pd.nickname

/-- `PrivateToken` from `src/routes/connection/token.rs`. -/
structure PrivateToken where
  api_token : List Nat
  api_url : List Nat
  player_data : PlayerData
deriving DecidableEq, Repr

/-- `PrivateToken::to_bytes` (derived `DekuWrite`, little-endian, fields in
declaration order, starting from an empty writer). -/
def PrivateToken.to_bytes (pt : PrivateToken) : List Nat :=
  PlayerData.write
    (deku_helper_write_str (deku_helper_write_str [] pt.api_token) pt.api_url)
    pt.player_data

/-- `TOKEN_VERSION`. -/
def TOKEN_VERSION : Nat := 1

/-- `XCHACHA20POLY1305_IETF_ABYTES = size_of::<chacha20poly1305::Tag>()`. -/
def XCHACHA20POLY1305_IETF_ABYTES : Nat := 16

/-- `AdditionalTokenData` from `src/routes/connection/token.rs`. -/
structure AdditionalTokenData where
  token_version : Nat
  expire_timestamp : Nat
  client_to_server_key : List Nat
  server_to_client_key : List Nat
deriving DecidableEq, Repr

/-- `AdditionalTokenData::to_bytes` (derived `DekuWrite`, little-endian,
fields in declaration order, the keys via `deku_helper_write_key`). -/
def AdditionalTokenData.to_bytes (d : AdditionalTokenData) : List Nat :=
  deku_helper_write_key
    (deku_helper_write_key
      (dekuWriteU64 (dekuWriteU32 [] d.token_version) d.expire_timestamp)
      d.client_to_server_key)
    d.server_to_client_key

/-- The private-token wire layout exactly as the specification words it:
api token string, api url string, player UUID (16 raw little-endian-order
bytes), player nickname — each string being a 4-byte little-endian length
followed by its UTF-8 bytes. -/
def specPrivateTokenLayout (pt : PrivateToken) : List Nat :=
  (u32le pt.api_token.length ++ pt.api_token) ++
  (u32le pt.api_url.length ++ pt.api_url) ++
  pt.player_data.uuid.to_bytes_le ++
  (u32le pt.player_data.nickname.length ++ pt.player_data.nickname)

/-- The additional-data header layout exactly as the specification words
it: `token_version = 1` as `u32`, `expire_timestamp` as `u64`, then the two
32-byte session keys. -/
def specAdditionalDataLayout (expire : Nat) (ck sk : List Nat) : List Nat :=
  u32le 1 ++ u64le expire ++ ck ++ sk

/-! ## AEAD cipher model (the `chacha20poly1305` / `aead` crates)

The cipher is a third-party collaborator; its keystream and tag functions
are arbitrary parameters.  What the model pins down — faithfully to the
`aead` crate's in-place API — is the framing: `encrypt_in_place` transforms
the whole buffer it is given length-preservingly and then **appends** the
16-byte tag, and `decrypt_in_place` splits the tag off the end, recomputes
it over ciphertext and associated data, and inverts the transform on
success. -/

/-- An XChaCha20-Poly1305-shaped AEAD: `ks key nonce i` is the keystream
byte at position `i`, `tg key nonce ad ct i` the `i`-th of the 16 tag
bytes. -/
structure AeadModel where
  ks : List Nat → List Nat → Nat → Nat
  tg : List Nat → List Nat → List Nat → List Nat → Nat → Nat

/-- XOR the buffer with the keystream (the length-preserving half of the
detached in-place operations). -/
def AeadModel.xorKS (A : AeadModel) (key nonce buf : List Nat) : List Nat :=
  buf.mapIdx (fun i b => b ^^^ A.ks key nonce i)

/-- The 16 tag bytes over associated data and ciphertext. -/
def AeadModel.tagBytes (A : AeadModel) (key nonce ad ct : List Nat) : List Nat :=
  (List.range 16).map (A.tg key nonce ad ct)

/-- `AeadMutInPlace::encrypt_in_place`: encrypt the buffer in place, then
append the authentication tag. -/
def AeadModel.encrypt_in_place (A : AeadModel) (key nonce ad buf : List Nat) :
    List Nat :=
  A.xorKS key nonce buf ++ A.tagBytes key nonce ad (A.xorKS key nonce buf)

/-- `AeadMutInPlace::decrypt_in_place`: split the tag off the end, verify
it, decrypt on success. -/
def AeadModel.decrypt_in_place (A : AeadModel) (key nonce ad buf : List Nat) :
    Except Unit (List Nat) :=
  if buf.length < 16 then .error ()
  else
    let ct := buf.take (buf.length - 16)
    let tag := buf.drop (buf.length - 16)
    if tag = A.tagBytes key nonce ad ct then .ok (A.xorKS key nonce ct)
    else .error ()

/-! ## Connection token generation
(`src/routes/connection/token.rs`, `src/game_connection_token.rs`,
`src/routes/connection/mod.rs`) -/

/-- The serialisable fields of `Token` (`EncryptionKeys` inlined as the two
key fields, `ServerAddress` as an address/port pair). -/
structure Token where
  token_version : Nat
  token_nonce : List Nat
  creation_timestamp : Nat
  expire_timestamp : Nat
  client_to_server_key : List Nat
  server_to_client_key : List Nat
  game_server : String × Nat
  private_token_data : List Nat
deriving DecidableEq, Repr

/-- `Token::generate` from `src/routes/connection/token.rs`, collaborators
explicit: `timestamp` is the whole-second duration since the epoch, `ck`
and `sk` the two freshly generated session keys, `nonce` the fresh 192-bit
nonce, and `enc key nonce ad buffer` the cipher's fallible in-place
encryption.  The `?` on `encrypt_in_place` converts the cipher error (a
data-free `aead::Error`) through the blanket `From` impl into
`InternalError::External` (it is neither a `SystemTimeError` nor a
`semver::Error`). -/
def Token.generate
    (enc : List Nat → List Nat → List Nat → List Nat → Except Unit (List Nat))
    (token_key : List Nat) (duration : Nat) (server_address : String × Nat)
    (private_token : PrivateToken) (timestamp : Nat) (ck sk nonce : List Nat) :
    Except InternalError Token :=
  let expire_timestamp := timestamp + duration
  let additional_data : AdditionalTokenData :=
    { token_version := TOKEN_VERSION
      expire_timestamp := expire_timestamp
      client_to_server_key := ck
      server_to_client_key := sk }
  let additional_data_bytes := additional_data.to_bytes
  let private_token_bytes := private_token.to_bytes ++
    List.replicate XCHACHA20POLY1305_IETF_ABYTES 0
  match enc token_key nonce additional_data_bytes private_token_bytes with
  | .error _ => .error (.External .other)
  | .ok encrypted =>
    .ok { token_version := TOKEN_VERSION
          token_nonce := nonce
          creation_timestamp := timestamp
          expire_timestamp := expire_timestamp
          client_to_server_key := ck
          server_to_client_key := sk
          game_server := server_address
          private_token_data := encrypted }

/-- The outcome of a call that may `unwrap()` an `Err` (a Rust panic is a
distinct third outcome, neither a value nor a returned error). -/
inductive Outcome (α : Type) where
  | ok (a : α)
  | err (e : InternalError)
  | panicked
deriving DecidableEq, Repr

/-- `GameConnectionToken::generate` from `src/game_connection_token.rs`:
identical to `Token::generate` except that the cipher result is
`.unwrap()`ed, so a cipher failure panics instead of returning a failure. -/
def GameConnectionToken.generate
    (enc : List Nat → List Nat → List Nat → List Nat → Except Unit (List Nat))
    (token_key : List Nat) (duration : Nat) (server_address : String × Nat)
    (private_token : PrivateToken) (timestamp : Nat) (ck sk nonce : List Nat) :
    Outcome Token :=
  let expire_timestamp := timestamp + duration
  let additional_data : AdditionalTokenData :=
    { token_version := TOKEN_VERSION
      expire_timestamp := expire_timestamp
      client_to_server_key := ck
      server_to_client_key := sk }
  let additional_data_bytes := additional_data.to_bytes
  let private_token_bytes := private_token.to_bytes ++
    List.replicate XCHACHA20POLY1305_IETF_ABYTES 0
  match enc token_key nonce additional_data_bytes private_token_bytes with
  | .error _ => .panicked
  | .ok encrypted =>
    .ok { token_version := TOKEN_VERSION
          token_nonce := nonce
          creation_timestamp := timestamp
          expire_timestamp := expire_timestamp
          client_to_server_key := ck
          server_to_client_key := sk
          game_server := server_address
          private_token_data := encrypted }

/-- The token step of `game_connect` (`src/routes/connection/mod.rs`): the
`let Ok(token) = ... else` arm replaces any `Token::generate` failure by the
generic `ServerError(Internal, TokenGenerationFailed)`. -/
def game_connect_token_step (genResult : Except InternalError Token) :
    Except RouteError Token :=
  match genResult with
  | .ok token => .ok token
  | .error _ => .error (.ServerError .Internal .TokenGenerationFailed)

/-- A concrete AEAD instance for closed evaluations. -/
def aeadC : AeadModel :=
  ⟨fun _ _ i => (i + 1) % 256, fun _ _ ad ct i => (ad.sum + ct.sum + i) % 256⟩

/-- The infallible encryption of `aeadC`, in the shape `Token.generate`
expects. -/
def encC : List Nat → List Nat → List Nat → List Nat → Except Unit (List Nat) :=
  fun key nonce ad buf => .ok (aeadC.encrypt_in_place key nonce ad buf)

/-- An always-failing cipher (the `aead::Error` carries no data). -/
def encFail : List Nat → List Nat → List Nat → List Nat → Except Unit (List Nat) :=
  fun _ _ _ _ => .error ()

/-- A concrete 256-bit token key. -/
def keyC : List Nat := List.replicate 32 7

/-- A concrete 192-bit nonce. -/
def nonceC : List Nat := List.replicate 24 9

/-- Concrete session keys. -/
def ckC : List Nat := List.replicate 32 2

/-- Concrete session keys. -/
def skC : List Nat := List.replicate 32 3

/-- A concrete private token. -/
def ptC : PrivateToken :=
  ⟨[1, 2], [3], ⟨⟨5, 6, 7, [0, 1, 2, 3, 4, 5, 6, 7]⟩, [4]⟩⟩

/-- The ciphertext `Token.generate` produces on the concrete inputs. -/
def ptdC : List Nat :=
  aeadC.encrypt_in_place keyC nonceC
    (AdditionalTokenData.to_bytes ⟨TOKEN_VERSION, 160, ckC, skC⟩)
    (ptC.to_bytes ++ List.replicate 16 0)

/-! ### Equivalence lemmas for the platform key -/

lemma sliceBefore_findIdx_eq_takeWhile (c : Char) (s : List Char) :
    sliceBefore s (s.findIdx? (· = c)) = s.takeWhile (· ≠ c) := by
  induction s with
  | nil => rfl
  | cons x t ih =>
    by_cases hx : x = c
    · subst hx
      simp [sliceBefore, List.findIdx?_cons, List.takeWhile_cons]
    · rw [List.findIdx?_cons, if_neg (by simp [hx]), List.findIdx?_succ,
        List.takeWhile_cons_of_pos (by simp [hx])]
      cases h : t.findIdx? (· = c) with
      | none =>
        rw [h] at ih
        rw [Option.map_none']
        simpa [sliceBefore] using ih
      | some p =>
        rw [h] at ih
        rw [Option.map_some']
        simpa [sliceBefore, List.take_succ_cons] using ih

lemma stripAtMarker_eq_strFindSub (s : List Char) :
    stripAtMarker s = sliceBefore s (strFindSub releasedbgMarker s) := by
  induction s with
  | nil => rfl
  | cons c t ih =>
    by_cases hp : releasedbgMarker.isPrefixOf (c :: t) = true
    · simp [stripAtMarker, strFindSub, hp, sliceBefore]
    · rw [show stripAtMarker (c :: t) = c :: stripAtMarker t by
        simp [stripAtMarker, hp]]
      rw [show strFindSub releasedbgMarker (c :: t)
            = (strFindSub releasedbgMarker t).map (· + 1) by
        simp [strFindSub, hp]]
      cases h : strFindSub releasedbgMarker t with
      | none =>
        rw [h] at ih
        rw [Option.map_none']
        simpa [sliceBefore] using ih
      | some p =>
        rw [h] at ih
        rw [Option.map_some']
        simpa [sliceBefore, List.take_succ_cons] using ih

/-- The source's derivation agrees with the amended wording on every input. -/
lemma remove_game_suffix_eq_amended (s : List Char) :
    remove_game_suffix s = specPlatformKeyAmended s := by
  unfold remove_game_suffix specPlatformKeyAmended
  rw [sliceBefore_findIdx_eq_takeWhile '.' s, ← stripAtMarker_eq_strFindSub]

/-! ### Association-list (HashMap) lemmas -/

lemma Assets.lookup_insertKV (m : Assets) (k k' : String) (v : Asset) :
    (m.insertKV k v).lookup k' = if k' = k then some v else m.lookup k' := by
  unfold Assets.insertKV
  induction m with
  | nil =>
    simp only [List.filter_nil, List.nil_append, List.lookup_cons]
    by_cases h : k' = k
    · rw [if_pos h, show (k' == k) = true by simp [h]]
    · rw [if_neg h, show (k' == k) = false by simp [h]]
  | cons p t ih =>
    obtain ⟨pk, pv⟩ := p
    by_cases hpk : pk = k
    · rw [List.filter_cons, if_neg (by simp [hpk]), ih]
      by_cases h : k' = k
      · simp [h]
      · rw [if_neg h, if_neg h, List.lookup_cons,
          show (k' == pk) = false by simp [hpk, h]]
    · rw [List.filter_cons, if_pos (by simp [hpk]), List.cons_append]
      by_cases h : k' = pk
      · subst h
        rw [if_neg hpk, List.lookup_cons, List.lookup_cons,
          show (k' == k') = true by simp]
      · rw [List.lookup_cons, List.lookup_cons,
          show (k' == pk) = false by simp [h]]
        exact ih

lemma Assets.containsKey_eq_isSome_lookup (m : Assets) (k : String) :
    m.containsKey k = (m.lookup k).isSome := by
  unfold Assets.containsKey
  induction m with
  | nil => simp
  | cons p t ih =>
    obtain ⟨pk, pv⟩ := p
    by_cases h : pk = k
    · subst h
      simp [List.lookup]
    · rw [List.any_cons, List.lookup_cons]
      have h1 : (pk == k) = false := by simp [h]
      have h2 : (k == pk) = false := by simp [Ne.symm h]
      rw [h1, h2]
      simpa using ih

lemma Assets.lookup_eq_none_of_not_containsKey {m : Assets} {k : String}
    (h : m.containsKey k = false) : m.lookup k = none := by
  rw [Assets.containsKey_eq_isSome_lookup] at h
  exact Option.not_isSome_iff_eq_none.mp (by simp [h])

lemma Assets.containsKey_of_lookup_some {m : Assets} {k : String} {v : Asset}
    (h : m.lookup k = some v) : m.containsKey k = true := by
  rw [Assets.containsKey_eq_isSome_lookup, h]
  rfl

lemma Assets.containsKey_insertKV (m : Assets) (k k' : String) (v : Asset) :
    (m.insertKV k v).containsKey k' = ((k' == k) || m.containsKey k') := by
  rw [Assets.containsKey_eq_isSome_lookup, Assets.lookup_insertKV]
  by_cases h : k' = k
  · simp [h]
  · rw [if_neg h, Assets.containsKey_eq_isSome_lookup]
    simp [h]

lemma Assets.lookup_removeKey (m : Assets) (k k' : String) :
    (m.removeKey k).lookup k' = if k' = k then none else m.lookup k' := by
  unfold Assets.removeKey
  induction m with
  | nil => by_cases h : k' = k <;> simp [h]
  | cons p t ih =>
    obtain ⟨pk, pv⟩ := p
    by_cases hpk : pk = k
    · rw [List.filter_cons, if_neg (by simp [hpk]), ih]
      by_cases h : k' = k
      · simp [h]
      · rw [if_neg h, if_neg h, List.lookup_cons,
          show (k' == pk) = false by simp [hpk, h]]
    · rw [List.filter_cons, if_pos (by simp [hpk])]
      by_cases h : k' = pk
      · subst h
        rw [if_neg hpk, List.lookup_cons, List.lookup_cons,
          show (k' == k') = true by simp]
      · rw [List.lookup_cons, List.lookup_cons,
          show (k' == pk) = false by simp [h]]
        exact ih

/-! ### Collect / merge lemmas -/

lemma applyChecksum_of_fatal_none {asset : Asset}
    {r : Except InternalError String} (h : fatalResult r = none) :
    applyChecksum asset r = .ok { asset with sha256 := r.toOption } := by
  cases r with
  | ok s => rfl
  | error e =>
    simp only [fatalResult] at h
    cases he : e.isReqwest with
    | true => simp [applyChecksum, he, Except.toOption]
    | false => rw [he] at h; simp at h

lemma applyChecksum_of_fatal_some {asset : Asset}
    {r : Except InternalError String} {e : InternalError}
    (h : fatalResult r = some e) : applyChecksum asset r = .error e := by
  cases r with
  | ok s => simp [fatalResult] at h
  | error e' =>
    simp only [fatalResult] at h
    cases he : e'.isReqwest with
    | true => rw [he] at h; simp at h
    | false =>
      rw [he] at h
      simp at h
      subst h
      simp [applyChecksum, he]

lemma collectBinaries_of_firstFatal_some {items} {e : InternalError}
    (h : firstFatal items = some e) (acc : Assets) :
    collectBinaries acc items = .error e := by
  induction items generalizing acc with
  | nil => simp [firstFatal] at h
  | cons it rest ih =>
    unfold firstFatal at h
    cases hf : fatalResult it.2 with
    | some e' =>
      rw [hf] at h
      simp only [Option.some.injEq] at h
      subst h
      unfold collectBinaries
      rw [applyChecksum_of_fatal_some hf]
    | none =>
      rw [hf] at h
      unfold collectBinaries
      rw [applyChecksum_of_fatal_none hf]
      exact ih h _

lemma collectBinaries_of_firstFatal_none {items}
    (h : firstFatal items = none) (acc : Assets) :
    collectBinaries acc items = .ok (insertAllTolerant acc items) := by
  induction items generalizing acc with
  | nil => rfl
  | cons it rest ih =>
    unfold firstFatal at h
    cases hf : fatalResult it.2 with
    | some e' => rw [hf] at h; simp at h
    | none =>
      rw [hf] at h
      unfold collectBinaries insertAllTolerant
      rw [applyChecksum_of_fatal_none hf]
      exact ih h _

lemma collectBinaries_ok_inversion {items} {acc acc' : Assets}
    (h : collectBinaries acc items = .ok acc') :
    firstFatal items = none ∧ acc' = insertAllTolerant acc items := by
  cases hf : firstFatal items with
  | some e =>
    rw [collectBinaries_of_firstFatal_some hf acc] at h
    exact absurd h (by simp)
  | none =>
    rw [collectBinaries_of_firstFatal_none hf acc] at h
    simp only [Except.ok.injEq] at h
    exact ⟨rfl, h.symm⟩

lemma firstFatal_eq_none_iff {items} :
    firstFatal items = none ↔ ∀ it ∈ items, fatalResult it.2 = none := by
  induction items with
  | nil => simp [firstFatal]
  | cons it rest ih =>
    unfold firstFatal
    cases hf : fatalResult it.2 with
    | some e => simp [hf]
    | none => simpa [hf] using ih

lemma insertAllTolerant_preserves {items} {k : String} {acc : Assets}
    (h : ∀ it ∈ items, it.1.1 ≠ k) :
    (insertAllTolerant acc items).lookup k = acc.lookup k := by
  induction items generalizing acc with
  | nil => rfl
  | cons it rest ih =>
    unfold insertAllTolerant
    rw [ih (fun x hx => h x (List.mem_cons_of_mem it hx))]
    rw [Assets.lookup_insertKV]
    exact if_neg (fun hk => h it (List.mem_cons_self it rest) hk.symm)

lemma insertAllTolerant_containsKey_mono {items} {k : String} {acc : Assets}
    (h : acc.containsKey k = true) :
    (insertAllTolerant acc items).containsKey k = true := by
  induction items generalizing acc with
  | nil => exact h
  | cons it rest ih =>
    unfold insertAllTolerant
    exact ih (by rw [Assets.containsKey_insertKV]; simp [h])

lemma insertAllTolerant_containsKey_of_mem {items}
    {it : (String × Asset) × Except InternalError String} {acc : Assets}
    (h : it ∈ items) :
    (insertAllTolerant acc items).containsKey it.1.1 = true := by
  induction items generalizing acc with
  | nil => simp at h
  | cons it0 rest ih =>
    unfold insertAllTolerant
    rcases List.mem_cons.mp h with h0 | h0
    · subst h0
      exact insertAllTolerant_containsKey_mono
        (by rw [Assets.containsKey_insertKV]; simp)
    · exact ih h0

lemma insertAllTolerant_provenance {items} {k : String} {acc : Assets}
    (h : (insertAllTolerant acc items).containsKey k = true) :
    acc.containsKey k = true ∨ ∃ it ∈ items, it.1.1 = k := by
  induction items generalizing acc with
  | nil => exact Or.inl h
  | cons it rest ih =>
    unfold insertAllTolerant at h
    rcases ih h with h0 | h0
    · rw [Assets.containsKey_insertKV] at h0
      rcases Bool.or_eq_true_iff.mp h0 with h1 | h1
      · exact Or.inr ⟨it, List.mem_cons_self it rest, (eq_of_beq h1).symm⟩
      · exact Or.inl h1
    · obtain ⟨it', hmem, hk⟩ := h0
      exact Or.inr ⟨it', List.mem_cons_of_mem it hmem, hk⟩

lemma insertAllTolerant_lookup_of_nodup {items} {p : String} {a : Asset}
    {r : Except InternalError String} {acc : Assets}
    (hnd : (items.map (fun it => it.1.1)).Nodup)
    (hmem : ((p, a), r) ∈ items) :
    (insertAllTolerant acc items).lookup p = some { a with sha256 := r.toOption } := by
  induction items generalizing acc with
  | nil => simp at hmem
  | cons it0 rest ih =>
    rw [List.map_cons, List.nodup_cons] at hnd
    unfold insertAllTolerant
    rcases List.mem_cons.mp hmem with h0 | h0
    · subst h0
      have hne : ∀ it ∈ rest, it.1.1 ≠ p := by
        intro it hit hk
        have hp : p ∈ rest.map (fun x => x.1.1) := by
          rw [← hk]
          exact List.mem_map_of_mem _ hit
        exact hnd.1 hp
      rw [insertAllTolerant_preserves hne, Assets.lookup_insertKV, if_pos rfl]
      rfl
    · exact ih hnd.2 h0

lemma mem_gac {resolve : Asset → Except InternalError String}
    {assets : List RepoAsset} {version : Semver} {binaries : Option Assets}
    {it : (String × Asset) × Except InternalError String}
    (h : it ∈ get_assets_and_checksums resolve assets version binaries) :
    ∃ asset ∈ assets,
      it = ((removeGameSuffixS asset.name, Asset.with_version asset version),
        resolve (Asset.with_version asset version)) ∧
      strEndsWith asset.name ".sha256" = false ∧
      blockedBy binaries (removeGameSuffixS asset.name) = false := by
  unfold get_assets_and_checksums at h
  simp only [List.mem_map] at h
  obtain ⟨pa, hpa, rfl⟩ := h
  simp only [List.mem_filterMap] at hpa
  obtain ⟨asset, hassets, hf⟩ := hpa
  by_cases hc : (!strEndsWith asset.name ".sha256"
      && !blockedBy binaries (removeGameSuffixS asset.name)) = true
  · rw [if_pos hc] at hf
    injection hf with hf
    subst hf
    simp only [Bool.and_eq_true, Bool.not_eq_true'] at hc
    exact ⟨asset, hassets, rfl, hc.1, hc.2⟩
  · rw [if_neg hc] at hf
    exact absurd hf (by simp)

lemma firstFatal_gac_none {resolve : Asset → Except InternalError String}
    (hres : ∀ a, fatalResult (resolve a) = none)
    (assets : List RepoAsset) (version : Semver) (binaries : Option Assets) :
    firstFatal (get_assets_and_checksums resolve assets version binaries) = none := by
  rw [firstFatal_eq_none_iff]
  intro it hit
  obtain ⟨asset, _, heq, _, _⟩ := mem_gac hit
  rw [heq]
  exact hres _

lemma mergeOlder_preserves {resolve : Asset → Except InternalError String}
    {rest : List (Semver × Release)} :
    ∀ {acc acc' : Assets}, mergeOlder resolve acc rest = .ok acc' →
    ∀ k, acc.containsKey k = true →
      acc'.lookup k = acc.lookup k ∧ acc'.containsKey k = true := by
  induction rest with
  | nil =>
    intro acc acc' h k hk
    simp only [mergeOlder] at h
    cases h
    exact ⟨rfl, hk⟩
  | cons vr rest ih =>
    obtain ⟨version, release⟩ := vr
    intro acc acc' h k hk
    unfold mergeOlder at h
    cases hc : collectBinaries acc
        (get_assets_and_checksums resolve release.assets version (some acc)) with
    | error e => rw [hc] at h; exact absurd h (by simp)
    | ok acc1 =>
      rw [hc] at h
      obtain ⟨hff, hacc1⟩ := collectBinaries_ok_inversion hc
      subst hacc1
      have hne : ∀ it ∈ get_assets_and_checksums resolve release.assets version (some acc),
          it.1.1 ≠ k := by
        intro it hit hkk
        obtain ⟨asset, _, heq, _, hblocked⟩ := mem_gac hit
        rw [heq] at hkk
        simp only [blockedBy] at hblocked
        rw [show removeGameSuffixS asset.name = k from hkk] at hblocked
        rw [hk] at hblocked
        simp at hblocked
      obtain ⟨h3, h4⟩ := ih h k (insertAllTolerant_containsKey_mono hk)
      exact ⟨h3.trans (insertAllTolerant_preserves hne), h4⟩

lemma mergeOlder_provenance {resolve : Asset → Except InternalError String}
    {rest : List (Semver × Release)} :
    ∀ {acc acc' : Assets}, mergeOlder resolve acc rest = .ok acc' →
    ∀ k, acc'.containsKey k = true →
      acc.containsKey k = true ∨
      ∃ vr ∈ rest, ∃ asset ∈ vr.2.assets,
        strEndsWith asset.name ".sha256" = false ∧
        removeGameSuffixS asset.name = k := by
  induction rest with
  | nil =>
    intro acc acc' h k hk
    simp only [mergeOlder] at h
    cases h
    exact Or.inl hk
  | cons vr rest ih =>
    obtain ⟨version, release⟩ := vr
    intro acc acc' h k hk
    unfold mergeOlder at h
    cases hc : collectBinaries acc
        (get_assets_and_checksums resolve release.assets version (some acc)) with
    | error e => rw [hc] at h; exact absurd h (by simp)
    | ok acc1 =>
      rw [hc] at h
      obtain ⟨hff, hacc1⟩ := collectBinaries_ok_inversion hc
      subst hacc1
      rcases ih h k hk with h1 | h1
      · rcases insertAllTolerant_provenance h1 with h2 | h2
        · exact Or.inl h2
        · obtain ⟨it, hit, hk'⟩ := h2
          obtain ⟨asset, hassets, heq, hsha, _⟩ := mem_gac hit
          rw [heq] at hk'
          exact Or.inr ⟨(version, release), List.mem_cons_self _ _,
            asset, hassets, hsha, hk'⟩
      · obtain ⟨vr', hvr', hrest⟩ := h1
        exact Or.inr ⟨vr', List.mem_cons_of_mem _ hvr', hrest⟩

lemma mergeOlder_ok_of_nonFatal {resolve : Asset → Except InternalError String}
    (hres : ∀ a, fatalResult (resolve a) = none) (rest : List (Semver × Release)) :
    ∀ acc, ∃ acc', mergeOlder resolve acc rest = .ok acc' := by
  induction rest with
  | nil => intro acc; exact ⟨acc, rfl⟩
  | cons vr rest ih =>
    obtain ⟨version, release⟩ := vr
    intro acc
    obtain ⟨acc', hrec⟩ := ih (insertAllTolerant acc
      (get_assets_and_checksums resolve release.assets version (some acc)))
    refine ⟨acc', ?_⟩
    unfold mergeOlder
    rw [collectBinaries_of_firstFatal_none (firstFatal_gac_none hres _ _ _) acc]
    exact hrec

lemma hasAssetsEntry_false_elim {r : Release} (h : hasAssetsEntry r = false)
    {asset : RepoAsset} (hmem : asset ∈ r.assets)
    (hsha : strEndsWith asset.name ".sha256" = false)
    (hplat : removeGameSuffixS asset.name = "assets") : False := by
  unfold hasAssetsEntry at h
  rw [List.any_eq_false] at h
  have hca := h asset hmem
  simp [hsha, hplat] at hca

/-- C3: for every asset name and checksum-response body, `parse_response`
returns the first token as the hash when the body is exactly two
whitespace-separated tokens whose second is `'*'` followed by the asset's
own name; returns `WrongChecksum` when there are exactly two tokens but the
second is not `'*'`-prefixed or does not match the name after stripping the
`'*'`; and returns `InvalidSha256 n` with `n` the observed token count when
the body does not have exactly two tokens. -/
theorem claim_C3 (name body : List Char) :
    (∀ hash, splitWhitespace body = [hash, '*' :: name] →
      parse_response name body = .ok hash) ∧
    (∀ hash fn, splitWhitespace body = [hash, fn] →
      (¬ startsWithChar fn '*' = true ∨ fn.drop 1 ≠ name) →
      parse_response name body = .error .WrongChecksum) ∧
    ((splitWhitespace body).length ≠ 2 →
      parse_response name body = .error (.InvalidSha256 (splitWhitespace body).length)) := by
  refine ⟨?_, ?_, ?_⟩
  · intro hash hsplit
    unfold parse_response
    rw [hsplit]
    simp [startsWithChar]
  · intro hash fn hsplit hcond
    have hc : (!startsWithChar fn '*' || decide (fn.drop 1 ≠ name)) = true := by
      rw [Bool.or_eq_true]
      rcases hcond with h | h
      · left
        simp only [Bool.not_eq_true] at h
        simp [h]
      · right
        exact decide_eq_true h
    unfold parse_response
    rw [hsplit]
    simp only [hc]
  · intro hn
    unfold parse_response
    rcases h : splitWhitespace body with _ | ⟨a, _ | ⟨b, _ | ⟨c, t⟩⟩⟩
    · rfl
    · rfl
    · exact absurd (by rw [h]; rfl) hn
    · rfl

/-- C3 witness: the three branches of `claim_C3` at concrete inputs. -/
theorem claim_C3_witness :
    parse_response "abc.zip".data "0123 *abc.zip".data = .ok "0123".data ∧
    parse_response "abc.zip".data "0123 *abd.zip".data = .error .WrongChecksum ∧
    parse_response "abc.zip".data "0123".data = .error (.InvalidSha256 1) := by
  refine ⟨?_, ?_, ?_⟩
  · exact (claim_C3 "abc.zip".data "0123 *abc.zip".data).1 "0123".data (by decide)
  · exact (claim_C3 "abc.zip".data "0123 *abd.zip".data).2.1 "0123".data "*abd.zip".data
      (by decide) (Or.inr (by decide))
  · have h := (claim_C3 "abc.zip".data "0123".data).2.2 (by decide)
    have e : (splitWhitespace "0123".data).length = 1 := by decide
    rw [e] at h
    exact h

/-- C8 counterexample: the claim derives the platform key by stripping a
*trailing* `_releasedbg` marker, but `remove_game_suffix` strips from the
*first occurrence* of the marker, so the two disagree on
`"a_releasedbg_b.zip"`. -/
theorem claim_C8_counterexample :
    remove_game_suffix "a_releasedbg_b.zip".data = "a".data ∧
    specPlatformKeyTrailing "a_releasedbg_b.zip".data = "a_releasedbg_b".data ∧
    remove_game_suffix "a_releasedbg_b.zip".data ≠
      specPlatformKeyTrailing "a_releasedbg_b.zip".data := by
  refine ⟨by decide, by decide, by decide⟩

/-- C8 (amended): for every asset filename the derived platform key is
obtained by stripping everything from the first `'.'` onward and then
stripping everything from the first occurrence of `'_releasedbg'` onward;
in particular `windows_x64_releasedbg.zip ↦ windows_x64`,
`assets.zip ↦ assets`, and `linux_x86_64_releasedbg.zip ↦ linux_x86_64`. -/
theorem claim_C8 :
    (∀ s : List Char, remove_game_suffix s = specPlatformKeyAmended s) ∧
    remove_game_suffix "windows_x64_releasedbg.zip".data = "windows_x64".data ∧
    remove_game_suffix "assets.zip".data = "assets".data ∧
    remove_game_suffix "linux_x86_64_releasedbg.zip".data = "linux_x86_64".data :=
  ⟨remove_game_suffix_eq_amended, by decide, by decide, by decide⟩

/-- C1: on the history where release `0.2.0` carries only a `windows_x64`
binary and release `0.1.0` carries `assets`, `windows_x64` and
`linux_x86_64`, `get_latest_game_release` returns version `0.2.0` with the
windows binary from `0.2.0` and the linux binary and the assets bundle
(with `assets_version`) from `0.1.0`; and in general, merging an older
release never changes the entry of a platform key already present in the
working binaries map built from newer releases. -/
theorem claim_C1 :
    get_latest_game_release parseSimpleSemver resolveHash [rel020, rel010] = .ok grC1 ∧
    (∀ (resolve : Asset → Except InternalError String)
        (rest : List (Semver × Release)) (acc acc' : Assets),
      mergeOlder resolve acc rest = .ok acc' →
      ∀ k, acc.containsKey k = true → acc'.lookup k = acc.lookup k) := by
  constructor
  · rfl
  · intro resolve rest acc acc' h k hk
    exact (mergeOlder_preserves h k hk).1

/-- C1 witness: the no-overwrite half of `claim_C1` applied to the concrete
back-fill history: merging `0.1.0` below a working map that already holds a
`windows_x64` entry leaves that entry's binding unchanged. -/
theorem claim_C1_witness :
    (List.lookup "windows_x64"
      [("windows_x64", { assetW with sha256 := some "u2w.sha" })])
      = ([("windows_x64",
            { assetW with sha256 := some "u2w.sha" }),
          ("assets", ⟨10, "assets.zip", ⟨0, 1, 0⟩, "u1a", some "u1a.sha"⟩),
          ("linux_x86_64", ⟨12, "linux_x86_64.zip", ⟨0, 1, 0⟩, "u1l", some "u1l.sha"⟩)]
          : Assets).lookup "windows_x64" := by
  have h := claim_C1.2 resolveHash [(⟨0, 1, 0⟩, rel010)]
    [("windows_x64", { assetW with sha256 := some "u2w.sha" })]
    [("windows_x64", { assetW with sha256 := some "u2w.sha" }),
     ("assets", ⟨10, "assets.zip", ⟨0, 1, 0⟩, "u1a", some "u1a.sha"⟩),
     ("linux_x86_64", ⟨12, "linux_x86_64.zip", ⟨0, 1, 0⟩, "u1l", some "u1l.sha"⟩)]
    (by rfl) "windows_x64" (by decide)
  exact h.symm

/-- C5: during release resolution a transport-failed checksum fetch
degrades to an included asset with absent `sha256` (stated for batches with
pairwise-distinct platform keys), while the first non-transport checksum
failure aborts `collectBinaries` — and hence the enclosing
`get_latest_game_release` / `get_latest_updater_release` call — with
exactly that failure. -/
theorem claim_C5 :
    (∀ (asset : Asset) (e : InternalError), e.isReqwest = true →
      applyChecksum asset (.error e) = .ok { asset with sha256 := none }) ∧
    (∀ (asset : Asset) (e : InternalError), e.isReqwest = false →
      applyChecksum asset (.error e) = .error e) ∧
    (∀ items (acc acc' : Assets) (p : String) (a : Asset) (e : InternalError),
      collectBinaries acc items = .ok acc' →
      (items.map (fun it => it.1.1)).Nodup →
      ((p, a), Except.error e) ∈ items → e.isReqwest = true →
      acc'.lookup p = some { a with sha256 := none }) ∧
    (∀ items (acc : Assets) (e : InternalError), firstFatal items = some e →
      collectBinaries acc items = .error e) ∧
    (∀ (pv : String → Option Semver) (resolve : Asset → Except InternalError String)
        (releases : List Release) (lv : Semver) (lr : Release)
        (rest : List (Semver × Release)) (e : InternalError),
      eligibleReleases pv releases = (lv, lr) :: rest →
      firstFatal (get_assets_and_checksums resolve lr.assets lv none) = some e →
      get_latest_game_release pv resolve releases = .error e) ∧
    (∀ (pv : String → Option Semver) (resolve : Asset → Except InternalError String)
        (rel : Release) (v : Semver) (e : InternalError),
      pv rel.tag_name = some v →
      firstFatal (get_assets_and_checksums resolve rel.assets v none) = some e →
      get_latest_updater_release pv resolve rel = .error e) := by
  refine ⟨?_, ?_, ?_, ?_, ?_, ?_⟩
  · intro asset e he
    simp [applyChecksum, he]
  · intro asset e he
    simp [applyChecksum, he]
  · intro items acc acc' p a e hok hnd hmem he
    obtain ⟨hff, rfl⟩ := collectBinaries_ok_inversion hok
    rw [insertAllTolerant_lookup_of_nodup hnd hmem]
    rfl
  · intro items acc e h
    exact collectBinaries_of_firstFatal_some h acc
  · intro pv resolve releases lv lr rest e hel hff
    unfold get_latest_game_release
    rw [hel]
    simp only []
    rw [collectBinaries_of_firstFatal_some hff []]
  · intro pv resolve rel v e hpv hff
    unfold get_latest_updater_release
    rw [hpv]
    simp only []
    exact collectBinaries_of_firstFatal_some hff []

/-- C5 witness: each part of `claim_C5` at concrete inputs — a transport
error keeps the asset with `sha256 := none`, a `WrongChecksum` aborts the
collect and both top-level fetch operations. -/
theorem claim_C5_witness :
    applyChecksum assetW (.error (.External .reqwest)) = .ok assetW ∧
    applyChecksum assetW (.error .WrongChecksum) = .error .WrongChecksum ∧
    (List.lookup "windows_x64" (Assets.insertKV [] "windows_x64" assetW)
      = some assetW) ∧
    collectBinaries [] [(("windows_x64", assetW), Except.error .WrongChecksum)]
      = .error .WrongChecksum ∧
    get_latest_game_release parseSimpleSemver (fun _ => .error .WrongChecksum)
      [rel020] = .error .WrongChecksum ∧
    get_latest_updater_release parseSimpleSemver (fun _ => .error .WrongChecksum)
      rel020 = .error .WrongChecksum := by
  refine ⟨?_, ?_, ?_, ?_, ?_, ?_⟩
  · exact claim_C5.1 assetW (.External .reqwest) rfl
  · exact claim_C5.2.1 assetW .WrongChecksum rfl
  · exact claim_C5.2.2.1 [(("windows_x64", assetW), Except.error (.External .reqwest))]
      [] (Assets.insertKV [] "windows_x64" assetW) "windows_x64" assetW
      (.External .reqwest) (by rfl) (by decide) (List.mem_cons_self _ _) rfl
  · exact claim_C5.2.2.2.1 [(("windows_x64", assetW), Except.error .WrongChecksum)]
      [] .WrongChecksum (by rfl)
  · exact claim_C5.2.2.2.2.1 parseSimpleSemver (fun _ => .error .WrongChecksum)
      [rel020] ⟨0, 2, 0⟩ rel020 [] .WrongChecksum (by rfl) (by rfl)
  · exact claim_C5.2.2.2.2.2 parseSimpleSemver (fun _ => .error .WrongChecksum)
      rel020 ⟨0, 2, 0⟩ .WrongChecksum (by rfl) (by rfl)

/-- C6: with a checksum fetcher that never fails fatally, a history in
which no eligible release carries an `assets` entry makes
`get_latest_game_release` fail with `NoReleaseFound`; conversely, every
successfully returned `GameRelease` has the `"assets"` key removed from its
binaries map, its `assets_version` equal to the contributing asset's
release version, and its assets bundle contributed by an actual `assets`
entry of some eligible release. -/
theorem claim_C6 (pv : String → Option Semver)
    (resolve : Asset → Except InternalError String) (releases : List Release) :
    ((∀ a, fatalResult (resolve a) = none) →
      (∀ vr ∈ eligibleReleases pv releases, hasAssetsEntry vr.2 = false) →
      get_latest_game_release pv resolve releases = .error .NoReleaseFound) ∧
    (∀ gr, get_latest_game_release pv resolve releases = .ok gr →
      gr.binaries.lookup "assets" = none ∧
      gr.assets_version = gr.assets.version ∧
      ∃ vr ∈ eligibleReleases pv releases, hasAssetsEntry vr.2 = true) := by
  constructor
  · intro hres hno
    unfold get_latest_game_release
    cases hel : eligibleReleases pv releases with
    | nil => rfl
    | cons hd rest =>
      obtain ⟨lv, lr⟩ := hd
      simp only []
      rw [collectBinaries_of_firstFatal_none (firstFatal_gac_none hres _ _ _) []]
      simp only []
      obtain ⟨binout, hmerge⟩ := mergeOlder_ok_of_nonFatal hres rest
        (insertAllTolerant [] (get_assets_and_checksums resolve lr.assets lv none))
      rw [hmerge]
      simp only []
      have hnc : binout.containsKey "assets" = false := by
        cases hb : binout.containsKey "assets" with
        | false => rfl
        | true =>
          exfalso
          rcases mergeOlder_provenance hmerge _ hb with h1 | h1
          · rcases insertAllTolerant_provenance h1 with h2 | h2
            · simp [Assets.containsKey] at h2
            · obtain ⟨it, hit, hk⟩ := h2
              obtain ⟨asset, hassets, heq, hsha, _⟩ := mem_gac hit
              rw [heq] at hk
              exact hasAssetsEntry_false_elim
                (hno (lv, lr) (by rw [hel]; exact List.mem_cons_self _ _))
                hassets hsha hk
          · obtain ⟨vr', hvr', asset, hassets, hsha, hk⟩ := h1
            exact hasAssetsEntry_false_elim
              (hno vr' (by rw [hel]; exact List.mem_cons_of_mem _ hvr'))
              hassets hsha hk
      rw [Assets.lookup_eq_none_of_not_containsKey hnc]
  · intro gr hok
    unfold get_latest_game_release at hok
    cases hel : eligibleReleases pv releases with
    | nil => rw [hel] at hok; exact absurd hok (by simp)
    | cons hd rest =>
      obtain ⟨lv, lr⟩ := hd
      rw [hel] at hok
      simp only [] at hok
      cases hc0 : collectBinaries []
          (get_assets_and_checksums resolve lr.assets lv none) with
      | error e => rw [hc0] at hok; exact absurd hok (by simp)
      | ok b0 =>
        rw [hc0] at hok
        simp only [] at hok
        cases hm : mergeOlder resolve b0 rest with
        | error e => rw [hm] at hok; exact absurd hok (by simp)
        | ok b1 =>
          rw [hm] at hok
          simp only [] at hok
          cases hl : b1.lookup "assets" with
          | none => rw [hl] at hok; exact absurd hok (by simp)
          | some assets =>
            rw [hl] at hok
            simp only [] at hok
            injection hok with hok
            subst hok
            refine ⟨?_, rfl, ?_⟩
            · simp [Assets.lookup_removeKey]
            · have hck : b1.containsKey "assets" = true :=
                Assets.containsKey_of_lookup_some hl
              rcases mergeOlder_provenance hm _ hck with h1 | h1
              · obtain ⟨_, rfl⟩ := collectBinaries_ok_inversion hc0
                rcases insertAllTolerant_provenance h1 with h2 | h2
                · simp [Assets.containsKey] at h2
                · obtain ⟨it, hit, hk⟩ := h2
                  obtain ⟨asset, hassets, heq, hsha, _⟩ := mem_gac hit
                  rw [heq] at hk
                  refine ⟨(lv, lr), List.mem_cons_self _ _, ?_⟩
                  unfold hasAssetsEntry
                  rw [List.any_eq_true]
                  refine ⟨asset, hassets, ?_⟩
                  simp only [hsha, Bool.not_false, Bool.true_and, beq_iff_eq]
                  exact hk
              · obtain ⟨vr', hvr', asset, hassets, hsha, hk⟩ := h1
                refine ⟨vr', List.mem_cons_of_mem _ hvr', ?_⟩
                unfold hasAssetsEntry
                rw [List.any_eq_true]
                exact ⟨asset, hassets, by simp [hsha, hk]⟩

/-- C6 witness: both halves of `claim_C6` at concrete inputs — a history
whose only eligible release lacks an `assets` entry fails with
`NoReleaseFound`, and the back-fill history's successful result satisfies
the assets-bundle invariants. -/
theorem claim_C6_witness :
    get_latest_game_release parseSimpleSemver (fun _ => .ok "h") [rel020]
      = .error .NoReleaseFound ∧
    (grC1.binaries.lookup "assets" = none ∧
      grC1.assets_version = grC1.assets.version ∧
      ∃ vr ∈ eligibleReleases parseSimpleSemver [rel020, rel010],
        hasAssetsEntry vr.2 = true) := by
  constructor
  · exact (claim_C6 parseSimpleSemver (fun _ => .ok "h") [rel020]).1
      (fun _ => rfl) (by decide)
  · exact (claim_C6 parseSimpleSemver resolveHash [rel020, rel010]).2
      grC1 (by rfl)

/-- C9: player creation validates the (trimmed) nickname and fails with
exactly these codes — empty ⇒ `NicknameEmpty`, longer than the configured
maximum ⇒ `NicknameToolong`, and, when non-ASCII is disallowed, any
character outside `[A-Za-z0-9 _]` ⇒ `NicknameForbiddenCharacters` — each
surfaced as an HTTP 400 invalid-request error with no player row created. -/
theorem claim_C9 (config : NicknameConfig) (p : List Char) (uuid token : String)
    (db : List PlayerRow) :
    ((rustTrim p).isEmpty = true →
      createPlayer config p uuid token db =
        (.error (.InvalidRequest ⟨.NicknameEmpty, "Nickname cannot be empty"⟩), db) ∧
      RouteError.status_code
        (.InvalidRequest ⟨.NicknameEmpty, "Nickname cannot be empty"⟩) = 400) ∧
    ((rustTrim p).isEmpty = false →
      utf8Len (rustTrim p) > config.player_nickname_maxlength →
      createPlayer config p uuid token db =
        (.error (.InvalidRequest ⟨.NicknameToolong, toolongDesc config⟩), db) ∧
      RouteError.status_code
        (.InvalidRequest ⟨.NicknameToolong, toolongDesc config⟩) = 400) ∧
    ((rustTrim p).isEmpty = false →
      ¬ utf8Len (rustTrim p) > config.player_nickname_maxlength →
      config.player_allow_non_ascii = false →
      (rustTrim p).all (fun c => isAsciiAlphanumeric c || c == ' ' || c == '_') = false →
      createPlayer config p uuid token db =
        (.error (.InvalidRequest ⟨.NicknameForbiddenCharacters,
          "Nickname can only have ascii characters"⟩), db) ∧
      RouteError.status_code (.InvalidRequest ⟨.NicknameForbiddenCharacters,
        "Nickname can only have ascii characters"⟩) = 400) := by
  refine ⟨?_, ?_, ?_⟩
  · intro h
    exact ⟨by simp [createPlayer, h], rfl⟩
  · intro h1 h2
    refine ⟨?_, rfl⟩
    simp [createPlayer, h1, h2]
  · intro h1 h2 h3 h4
    refine ⟨?_, rfl⟩
    simp [createPlayer, h1, h2, h3, h4]

/-- C9 witness: the three rejections of `claim_C9` at concrete inputs under
`maxlength = 3`, `allow_non_ascii = false`. -/
theorem claim_C9_witness :
    createPlayer ⟨3, false⟩ " ".data "u" "t" [] =
      (.error (.InvalidRequest ⟨.NicknameEmpty, "Nickname cannot be empty"⟩), []) ∧
    createPlayer ⟨3, false⟩ "abcd".data "u" "t" [] =
      (.error (.InvalidRequest ⟨.NicknameToolong, toolongDesc ⟨3, false⟩⟩), []) ∧
    createPlayer ⟨3, false⟩ "a!".data "u" "t" [] =
      (.error (.InvalidRequest ⟨.NicknameForbiddenCharacters,
        "Nickname can only have ascii characters"⟩), []) :=
  ⟨((claim_C9 ⟨3, false⟩ " ".data "u" "t" []).1 (by decide)).1,
   ((claim_C9 ⟨3, false⟩ "abcd".data "u" "t" []).2.1 (by decide) (by decide)).1,
   ((claim_C9 ⟨3, false⟩ "a!".data "u" "t" []).2.2 (by decide) (by decide) rfl
      (by decide)).1⟩

/-- C10 (implicit): `create` trims leading and trailing whitespace before
any validation and before storing — a whitespace-only nickname is rejected
as `NicknameEmpty`, the outcome depends only on the trimmed string, and the
stored row carries the trimmed nickname. -/
theorem claim_C10 (config : NicknameConfig) (p : List Char) (uuid token : String)
    (db : List PlayerRow) :
    ((∀ c ∈ p, rustIsWhitespace c = true) →
      createPlayer config p uuid token db =
        (.error (.InvalidRequest ⟨.NicknameEmpty, "Nickname cannot be empty"⟩), db)) ∧
    (∀ q : List Char, rustTrim q = rustTrim p →
      createPlayer config q uuid token db = createPlayer config p uuid token db) ∧
    (∀ res db', createPlayer config p uuid token db = (.ok res, db') →
      db' = db ++ [⟨uuid, rustTrim p⟩]) := by
  refine ⟨?_, ?_, ?_⟩
  · intro h
    have ht : rustTrim p = [] := by
      unfold rustTrim rustTrimStart rustTrimEnd
      rw [List.dropWhile_eq_nil_iff.mpr h]
      simp
    simp [createPlayer, ht]
  · intro q hq
    unfold createPlayer
    rw [hq]
  · intro res db' hok
    by_cases h1 : (rustTrim p).isEmpty = true
    · simp [createPlayer, h1] at hok
    · by_cases h2 : utf8Len (rustTrim p) > config.player_nickname_maxlength
      · simp [createPlayer, h1, h2] at hok
      · by_cases h3 : (!config.player_allow_non_ascii
            && !((rustTrim p).all
              (fun c => isAsciiAlphanumeric c || c == ' ' || c == '_'))) = true
        · simp [createPlayer, h1, h2, h3] at hok
        · simp [createPlayer, h1, h2, h3] at hok
          exact hok.2.symm

/-- C10 witness: the three parts of `claim_C10` at concrete inputs — a
whitespace-only nickname is rejected as empty, `" ab "` behaves exactly as
`"ab"`, and the stored row carries the trimmed nickname. -/
theorem claim_C10_witness :
    createPlayer ⟨16, false⟩ "  ".data "u" "t" [] =
      (.error (.InvalidRequest ⟨.NicknameEmpty, "Nickname cannot be empty"⟩), []) ∧
    createPlayer ⟨16, false⟩ " ab ".data "u" "t" [] =
      createPlayer ⟨16, false⟩ "ab".data "u" "t" [] ∧
    ([(⟨"u", "ab".data⟩ : PlayerRow)] : List PlayerRow) =
      [] ++ [⟨"u", rustTrim " ab ".data⟩] :=
  ⟨(claim_C10 ⟨16, false⟩ "  ".data "u" "t" []).1 (by decide),
   (claim_C10 ⟨16, false⟩ "ab".data "u" "t" []).2.1 " ab ".data (by decide),
   (claim_C10 ⟨16, false⟩ " ab ".data "u" "t" []).2.2 ⟨"u", "t"⟩
     [⟨"u", "ab".data⟩] (by rfl)⟩

/-- C7: the serialized private token is, in order, the api token string,
the api url string, the player UUID as 16 raw bytes in little-endian byte
order, and the player nickname, with each string encoded as a 4-byte
little-endian length followed by its UTF-8 bytes; the additional-data
header is the fixed little-endian layout `token_version = 1 : u32`,
`expire_timestamp : u64`, then the two raw 32-byte session keys. -/
theorem claim_C7 :
    (∀ pt : PrivateToken, pt.to_bytes = specPrivateTokenLayout pt) ∧
    (∀ (expire : Nat) (ck sk : List Nat),
      AdditionalTokenData.to_bytes ⟨TOKEN_VERSION, expire, ck, sk⟩ =
        specAdditionalDataLayout expire ck sk) ∧
    (∀ u : UuidM, u.d4.length = 8 → u.to_bytes_le.length = 16) := by
  refine ⟨?_, ?_, ?_⟩
  · intro pt
    simp [PrivateToken.to_bytes, PlayerData.write, deku_helper_write_str,
      deku_helper_write_uuid, deku_helper_write_key, dekuWriteBytes,
      dekuWriteU32, specPrivateTokenLayout, List.append_assoc]
  · intro expire ck sk
    simp [AdditionalTokenData.to_bytes, deku_helper_write_key, dekuWriteBytes,
      dekuWriteU32, dekuWriteU64, specAdditionalDataLayout, TOKEN_VERSION,
      List.append_assoc]
  · intro u h
    simp [UuidM.to_bytes_le, u32le, u16le, h]

/-- C7 witness: the three parts of `claim_C7` at concrete values. -/
theorem claim_C7_witness :
    PrivateToken.to_bytes ptC = specPrivateTokenLayout ptC ∧
    AdditionalTokenData.to_bytes ⟨TOKEN_VERSION, 160, ckC, skC⟩ =
      specAdditionalDataLayout 160 ckC skC ∧
    (UuidM.to_bytes_le ⟨5, 6, 7, [0, 1, 2, 3, 4, 5, 6, 7]⟩).length = 16 :=
  ⟨claim_C7.1 ptC, claim_C7.2.1 160 ckC skC,
   claim_C7.2.2 ⟨5, 6, 7, [0, 1, 2, 3, 4, 5, 6, 7]⟩ (by decide)⟩

/-- C2: `Token::generate` does NOT produce a ciphertext of plaintext length
plus 16 — the model proves that every in-place encryption grows its buffer
by exactly 16, and the source pre-extends the plaintext by 16 zero bytes
(libsodium-style tag reservation) before calling the appending
`encrypt_in_place`, so on the concrete inputs `private_token_data` is 32
bytes longer than the serialized plaintext and decrypting it with the same
key, nonce and header recovers the plaintext followed by 16 zero bytes, not
the plaintext exactly; the claim's third clause (mismatched additional data
fails authentication) does hold, shown here on an altered
`expire_timestamp`. -/
theorem claim_C2 :
    (∀ (A : AeadModel) (key nonce ad buf : List Nat),
      (A.encrypt_in_place key nonce ad buf).length = buf.length + 16) ∧
    Token.generate encC keyC 60 ("srv", 1) ptC 100 ckC skC nonceC =
      .ok { token_version := 1, token_nonce := nonceC, creation_timestamp := 100,
            expire_timestamp := 160, client_to_server_key := ckC,
            server_to_client_key := skC, game_server := ("srv", 1),
            private_token_data := ptdC } ∧
    ptdC.length = ptC.to_bytes.length + 32 ∧
    ptdC.length ≠ ptC.to_bytes.length + 16 ∧
    aeadC.decrypt_in_place keyC nonceC
      (AdditionalTokenData.to_bytes ⟨TOKEN_VERSION, 160, ckC, skC⟩) ptdC =
      .ok (ptC.to_bytes ++ List.replicate 16 0) ∧
    ptC.to_bytes ++ List.replicate 16 0 ≠ ptC.to_bytes ∧
    aeadC.decrypt_in_place keyC nonceC
      (AdditionalTokenData.to_bytes ⟨TOKEN_VERSION, 161, ckC, skC⟩) ptdC =
      .error () := by
  refine ⟨?_, rfl, by decide, by decide, rfl, by decide, rfl⟩
  intro A key nonce ad buf
  simp [AeadModel.encrypt_in_place, AeadModel.xorKS, AeadModel.tagBytes]

/-- C4 counterexample: the claim says connection-token generation never
panics on a cipher failure, but `GameConnectionToken::generate`
(`src/game_connection_token.rs`) `unwrap()`s the `encrypt_in_place` result:
with a failing cipher it panics instead of returning a failure outcome. -/
theorem claim_C4_counterexample :
    GameConnectionToken.generate encFail keyC 60 ("srv", 1) ptC 100 ckC skC nonceC
      = .panicked ∧
    (Outcome.panicked : Outcome Token) ≠ .err (.External .other) :=
  ⟨rfl, by decide⟩

/-- C4 (amended): whenever the in-place encryption step fails,
`Token::generate` (the generate `game_connect` actually calls,
`src/routes/connection/token.rs`) returns a failure that the caller
surfaces as the generic 500 `TokenGenerationFailed` server error, carrying
nothing from the cipher; the legacy `GameConnectionToken::generate` in
`src/game_connection_token.rs`, by contrast, unwraps the cipher result and
panics on failure (see the counterexample). -/
theorem claim_C4
    (enc : List Nat → List Nat → List Nat → List Nat → Except Unit (List Nat))
    (token_key : List Nat) (duration : Nat) (server_address : String × Nat)
    (pt : PrivateToken) (timestamp : Nat) (ck sk nonce : List Nat)
    (henc : enc token_key nonce
        (AdditionalTokenData.to_bytes
          ⟨TOKEN_VERSION, timestamp + duration, ck, sk⟩)
        (pt.to_bytes ++ List.replicate XCHACHA20POLY1305_IETF_ABYTES 0)
        = .error ()) :
    Token.generate enc token_key duration server_address pt timestamp ck sk nonce
      = .error (.External .other) ∧
    game_connect_token_step
      (Token.generate enc token_key duration server_address pt timestamp ck sk nonce)
      = .error (.ServerError .Internal .TokenGenerationFailed) ∧
    RouteError.status_code (.ServerError .Internal .TokenGenerationFailed) = 500 ∧
    RouteError.body_err_code (.ServerError .Internal .TokenGenerationFailed)
      = .TokenGenerationFailed := by
  have hgen : Token.generate enc token_key duration server_address pt timestamp
      ck sk nonce = .error (.External .other) := by
    simp only [Token.generate]
    rw [henc]
  exact ⟨hgen, by rw [hgen]; rfl, rfl, rfl⟩

/-- C4 witness: `claim_C4` at the concrete always-failing cipher. -/
theorem claim_C4_witness :
    Token.generate encFail keyC 60 ("srv", 1) ptC 100 ckC skC nonceC
      = .error (.External .other) ∧
    game_connect_token_step
      (Token.generate encFail keyC 60 ("srv", 1) ptC 100 ckC skC nonceC)
      = .error (.ServerError .Internal .TokenGenerationFailed) ∧
    RouteError.status_code (.ServerError .Internal .TokenGenerationFailed) = 500 ∧
    RouteError.body_err_code (.ServerError .Internal .TokenGenerationFailed)
      = .TokenGenerationFailed :=
  claim_C4 encFail keyC 60 ("srv", 1) ptC 100 ckC skC nonceC rfl

end ThisApi
